import Mathlib

/-!
Verification of the atom scalar type system specification.

The repository's only source file is `setup.py`, a build manifest for a C
extension module; the C sources it names are not present in the repository.
The build manifest itself is embedded directly below.  All core operations
(register, lookup, make, convert, compare) are therefore modelled from the
specification text, as recorded in each definition's doc comment.
-/

deriving instance DecidableEq for Except

/-! ## The build manifest (from src/setup.py) -/

/-- The Python-visible module name declared by the Extension in setup.py. -/
def atomModuleName : String := "atom"

/-- The list of C source files the Extension in setup.py is compiled from. -/
def atomModuleSources : List String :=
  ["atom_module.c", "atom_types.c", "atom_conversions.c", "dtype_object.c"]

/-- The package name declared in the setup call of setup.py. -/
def atomPackageName : String := "atom-types"

/-- The complete list of source files present in the repository. -/
def repositoryFiles : List String := ["setup.py"]

/-! ## Data model

Modelled from the spec: the C sources atom_module.c, atom_types.c,
atom_conversions.c and dtype_object.c are missing from the repository, so
the data model below follows spec sections 3 and 4 verbatim. -/

/-- Modelled from the spec: dtype categories
(boolean, integer, floating, text, bytes, custom). -/
inductive Category where
  | boolean | integer | floating | text | bytes | custom
deriving DecidableEq

/-- Modelled from the spec: conversion modes. -/
inductive Mode where
  | implicit | explicit
deriving DecidableEq

/-- Modelled from the spec: the soft conversion signals
(`Overflow`, `PrecisionLoss`). -/
inductive Signal where
  | Overflow | PrecisionLoss
deriving DecidableEq

/-- Modelled from the spec: failures the conversion engine can return.
`Overflow` and `PrecisionLoss` appear here as the hard failures that the
soft signals are promoted to in implicit mode. -/
inductive ConvFailure where
  | NoConversionError | InvalidPayload | Overflow | PrecisionLoss
deriving DecidableEq

/-- Modelled from the spec: registration errors. -/
inductive RegError where
  | DuplicateNameError | UnknownTypeError
deriving DecidableEq

/-- Modelled from the spec: construction errors of `make`. -/
inductive MakeError where
  | RangeError | ShapeError
deriving DecidableEq

/-- Modelled from the spec: comparison errors. -/
inductive CmpError where
  | IncomparableTypesError | InvalidPayload
deriving DecidableEq

/-- A dyadic rational `num * 2 ^ exp`, the model of a fixed-width binary
floating-point value.  A float payload is kept in normalized form
(`num` odd, or `num = 0` with `exp = 0`) so that value equality is
structural equality. -/
structure Dyadic where
  num : Int
  exp : Int
deriving DecidableEq

/-- Halve an even mantissa until it is odd; fuel-driven so it computes. -/
def normAux : Nat → Int → Int → Dyadic
  | 0, n, e => ⟨n, e⟩
  | fuel+1, n, e => if n % 2 = 0 then normAux fuel (n / 2) (e + 1) else ⟨n, e⟩

/-- Normalize a dyadic: zero becomes `⟨0, 0⟩`, otherwise the mantissa is
made odd by moving factors of two into the exponent. -/
def Dyadic.normalize (d : Dyadic) : Dyadic :=
  if d.num = 0 then ⟨0, 0⟩ else normAux d.num.natAbs d.num d.exp

/-- Whether a dyadic is in normalized form. -/
def Dyadic.isNormalized (d : Dyadic) : Bool :=
  (d.num == 0 && d.exp == 0) || d.num % 2 != 0

/-- Whether a normalized dyadic fits in `m` mantissa bits. -/
def Dyadic.fitsMantissa (d : Dyadic) (m : Nat) : Bool :=
  d.num.natAbs < 2 ^ m

/-- Order two dyadics by value (bring both to the smaller exponent). -/
def Dyadic.cmp (a b : Dyadic) : Ordering :=
  let m := min a.exp b.exp
  let x := a.num * 2 ^ (a.exp - m).toNat
  let y := b.num * 2 ^ (b.exp - m).toNat
  if x < y then .lt else if x = y then .eq else .gt

/-- Truncate a dyadic toward zero to an integer. -/
def Dyadic.truncInt (d : Dyadic) : Int :=
  if 0 ≤ d.exp then d.num * 2 ^ d.exp.toNat
  else
    let q : Int := Int.ofNat (d.num.natAbs / 2 ^ (-d.exp).toNat)
    if d.num < 0 then -q else q

/-- Whether a dyadic denotes an integer (no fractional part). -/
def Dyadic.isIntegral (d : Dyadic) : Bool :=
  if 0 ≤ d.exp then true else d.num.natAbs % 2 ^ (-d.exp).toNat == 0

/-- View an integer as a (normalized) dyadic. -/
def Dyadic.ofInt (v : Int) : Dyadic := Dyadic.normalize ⟨v, 0⟩

/-- Drop low mantissa bits toward zero until at most `m` bits remain;
fuel-driven so it computes. -/
def dropAux : Nat → Int → Int → Nat → Dyadic
  | 0, n, e, _ => ⟨n, e⟩
  | fuel+1, n, e, m =>
    if 2 ^ m ≤ n.natAbs then
      dropAux fuel (if n < 0 then -Int.ofNat (n.natAbs / 2) else Int.ofNat (n.natAbs / 2)) (e + 1) m
    else ⟨n, e⟩

/-- Round a dyadic toward zero to at most `m` mantissa bits: the defined
truncation policy the spec requires of narrowing conversions. -/
def Dyadic.truncToMantissa (d : Dyadic) (m : Nat) : Dyadic :=
  Dyadic.normalize (dropAux d.num.natAbs d.num d.exp m)

/-- Modelled from the spec: the payload of an atom, a closed sum over the
supported storage shapes (boolean bit, fixed-width integer, fixed-width
float, variable-length byte buffer). -/
inductive Payload where
  | bool (b : Bool)
  | int (v : Int)
  | float (q : Dyadic)
  | buf (bytes : List Nat)
deriving DecidableEq

/-- Modelled from the spec: an immutable dtype descriptor — identity,
name, category, storage shape (`none` = variable width) and promotion
rank.  The operation table lives in the conversion engine, keyed by the
descriptor (missing from the repository sources). -/
structure Descriptor where
  id : Nat
  name : String
  category : Category
  storageSize : Option Nat
  rank : Nat
deriving DecidableEq

/-- Bit width of a fixed-width integer descriptor. -/
def intBits (d : Descriptor) : Nat := 8 * d.storageSize.getD 0

/-- Mantissa bit width of a floating descriptor
(4 bytes → 24 bits, 8 bytes → 53 bits, as for IEEE binary32/binary64). -/
def mantBits (d : Descriptor) : Nat :=
  match d.storageSize with
  | some 4 => 24
  | some 8 => 53
  | _ => 0

/-- Signed two's-complement range check for a `bits`-wide integer. -/
def inIntRange (bits : Nat) (v : Int) : Bool :=
  decide (-(2 ^ (bits - 1) : Int) ≤ v) && decide (v < (2 ^ (bits - 1) : Int))

/-- Two's-complement wrap of an integer into `bits` bits. -/
def wrapInt (bits : Nat) (v : Int) : Int :=
  let m : Int := 2 ^ bits
  let r := v % m
  if r < 2 ^ (bits - 1) then r else r - m

/-- Modelled from the spec: an atom, a dtype reference plus a payload. -/
structure Atom where
  dtype : Descriptor
  payload : Payload
deriving DecidableEq

/-- Modelled from the spec: `raw(atom)` returns the native value view. -/
def raw (a : Atom) : Payload := a.payload

/-! ## Built-in dtypes and the registry -/

/-- Built-in boolean dtype. -/
def bool_dtype : Descriptor := ⟨0, "bool", .boolean, some 1, 0⟩
/-- Built-in 8-bit signed integer dtype. -/
def int8_dtype : Descriptor := ⟨1, "int8", .integer, some 1, 0⟩
/-- Built-in 16-bit signed integer dtype. -/
def int16_dtype : Descriptor := ⟨2, "int16", .integer, some 2, 1⟩
/-- Built-in 32-bit signed integer dtype. -/
def int32_dtype : Descriptor := ⟨3, "int32", .integer, some 4, 2⟩
/-- Built-in 64-bit signed integer dtype. -/
def int64_dtype : Descriptor := ⟨4, "int64", .integer, some 8, 3⟩
/-- Built-in 32-bit float dtype. -/
def float32_dtype : Descriptor := ⟨5, "float32", .floating, some 4, 0⟩
/-- Built-in 64-bit float dtype. -/
def float64_dtype : Descriptor := ⟨6, "float64", .floating, some 8, 1⟩
/-- Built-in variable-width text dtype. -/
def text_dtype : Descriptor := ⟨7, "text", .text, none, 0⟩
/-- Built-in variable-width bytes dtype. -/
def bytes_dtype : Descriptor := ⟨8, "bytes", .bytes, none, 0⟩

/-- Modelled from the spec: the built-in dtype catalogue the registry is
populated with at process start. -/
def builtinDescs : List Descriptor :=
  [bool_dtype, int8_dtype, int16_dtype, int32_dtype, int64_dtype,
   float32_dtype, float64_dtype, text_dtype, bytes_dtype]

/-- Modelled from the spec: the process-wide dtype registry. -/
structure Registry where
  descs : List Descriptor
deriving DecidableEq

/-- The registry right after process start: built-ins only. -/
def builtinRegistry : Registry := ⟨builtinDescs⟩

/-- Modelled from the spec: the argument of `register` — the descriptor
minus the fields registration computes (`id`, and `rank` when defaulted). -/
structure DescriptorSpec where
  name : String
  category : Category
  storageSize : Option Nat
  rank : Option Nat
deriving DecidableEq

/-- Next unused descriptor id. -/
def nextId (r : Registry) : Nat :=
  (r.descs.map Descriptor.id).foldr Nat.max 0 + 1

/-- Maximum existing rank in a category (0 when the category is empty). -/
def maxRankIn (r : Registry) (c : Category) : Nat :=
  ((r.descs.filter (fun d => d.category == c)).map Descriptor.rank).foldr Nat.max 0

/-- Modelled from the spec (register is in the missing C sources):
`register(descriptor_spec)` validates uniqueness of the name, assigns the
next unused id, defaults the rank to the maximum existing rank in the
category plus one, and fails with `DuplicateNameError` — leaving the
registry untouched — when the name is already registered. -/
def register (s : DescriptorSpec) (r : Registry) : Except RegError Nat × Registry :=
  if r.descs.any (fun d => d.name == s.name) then (.error .DuplicateNameError, r)
  else
    let rk := match s.rank with
      | some k => k
      | none => maxRankIn r s.category + 1
    let d : Descriptor := ⟨nextId r, s.name, s.category, s.storageSize, rk⟩
    (.ok d.id, ⟨r.descs ++ [d]⟩)

/-- Modelled from the spec: `lookup(name)` fails with `UnknownTypeError`
when absent. -/
def lookup (key : String) (r : Registry) : Except RegError Descriptor :=
  match r.descs.find? (fun d => d.name == key) with
  | some d => .ok d
  | none => .error .UnknownTypeError

/-! ## Atom construction -/

/-- Whether a payload is structurally valid for a descriptor: the shape
matches the category and fixed-width numerics are in range. -/
def validFor (p : Payload) (d : Descriptor) : Bool :=
  match d.category, p with
  | .boolean, .bool _ => true
  | .integer, .int v => inIntRange (intBits d) v
  | .floating, .float q => q.isNormalized && q.fitsMantissa (mantBits d)
  | .text, .buf _ => true
  | .bytes, .buf _ => true
  | .custom, .buf _ => true
  | _, _ => false

/-- Modelled from the spec (make is in the missing C sources):
`make(dtype, native_value)` validates that the value fits the dtype's
storage shape; `RangeError` on overflow, `ShapeError` on a malformed
native value. -/
def make (d : Descriptor) (v : Payload) : Except MakeError Atom :=
  match d.category, v with
  | .boolean, .bool _ => .ok ⟨d, v⟩
  | .integer, .int n => if inIntRange (intBits d) n then .ok ⟨d, v⟩ else .error .RangeError
  | .floating, .float q =>
    if ! q.isNormalized then .error .ShapeError
    else if q.fitsMantissa (mantBits d) then .ok ⟨d, v⟩ else .error .RangeError
  | .text, .buf _ => .ok ⟨d, v⟩
  | .bytes, .buf _ => .ok ⟨d, v⟩
  | .custom, .buf _ => .ok ⟨d, v⟩
  | _, _ => .error .ShapeError

/-! ## Conversion engine -/

/-- Modelled from the spec: the built-in cross-category `convert_from`
hooks. Integer dtypes can be produced from booleans (false↔0, true↔1) and
from floats (round toward zero); booleans from the integers 0 and 1;
floats from integers (exact up to the mantissa width, rounded with a
`PrecisionLoss` signal beyond it). Any other cross-category pair has no
hook. -/
def convertFromHook (tgt src : Descriptor) :
    Option (Payload → Except ConvFailure (Payload × Option Signal)) :=
  match tgt.category, src.category with
  | .integer, .boolean => some (fun p =>
      match p with
      | .bool b => .ok (.int (if b then 1 else 0), none)
      | _ => .error .InvalidPayload)
  | .boolean, .integer => some (fun p =>
      match p with
      | .int 0 => .ok (.bool false, none)
      | .int 1 => .ok (.bool true, none)
      | _ => .error .InvalidPayload)
  | .integer, .floating => some (fun p =>
      match p with
      | .float q =>
        let t := q.truncInt
        let sig : Option Signal := if q.isIntegral then none else some .PrecisionLoss
        if inIntRange (intBits tgt) t then .ok (.int t, sig)
        else .ok (.int (wrapInt (intBits tgt) t), some .Overflow)
      | _ => .error .InvalidPayload)
  | .floating, .integer => some (fun p =>
      match p with
      | .int v =>
        let d := Dyadic.ofInt v
        if d.fitsMantissa (mantBits tgt) then .ok (.float d, none)
        else .ok (.float (d.truncToMantissa (mantBits tgt)), some .PrecisionLoss)
      | _ => .error .InvalidPayload)
  | _, _ => none

/-- Whether the target descriptor's `convert_from` table has an entry
keyed by the source descriptor. -/
def hasHook (tgt src : Descriptor) : Bool := (convertFromHook tgt src).isSome

/-- Modelled from the spec: conversions flagged lossy-only by the target
descriptor (float→integer), forbidden in implicit mode even though a
direct hook exists. -/
def lossyOnly (tgt src : Descriptor) : Bool :=
  match tgt.category, src.category with
  | .integer, .floating => true
  | _, _ => false

/-- Embed a soft signal into the hard-failure type. -/
def sigToFailure : Signal → ConvFailure
  | .Overflow => .Overflow
  | .PrecisionLoss => .PrecisionLoss

/-- The hard failure an implicit-mode conversion is rejected with:
the promoted signal when one was produced, `PrecisionLoss` otherwise. -/
def promote : Option Signal → ConvFailure
  | none => .PrecisionLoss
  | some s => sigToFailure s

/-- Apply the mode policy to a computed conversion outcome: explicit mode
returns the value alongside any soft signal; implicit mode promotes soft
signals to hard failures and rejects conversions that are forbidden
implicitly (lossy-only hooks and lattice narrowing). -/
def finishConv (mode : Mode) (forbidImplicit : Bool) (tgt : Descriptor)
    (p : Payload) (sig : Option Signal) :
    Except ConvFailure (Atom × Option Signal) :=
  match mode with
  | .explicit => .ok (⟨tgt, p⟩, sig)
  | .implicit =>
    if forbidImplicit then .error (promote sig)
    else
      match sig with
      | none => .ok (⟨tgt, p⟩, none)
      | some s => .error (sigToFailure s)

/-- Modelled from the spec: the promotion-lattice narrowing step within a
category. Integer narrowing keeps in-range values and otherwise wraps in
two's complement with an `Overflow` signal; float narrowing keeps values
that fit the target mantissa and otherwise truncates toward zero with a
`PrecisionLoss` signal. -/
def latticeNarrow (tgt : Descriptor) (p : Payload) : Payload × Option Signal :=
  match tgt.category, p with
  | .integer, .int v =>
    if inIntRange (intBits tgt) v then (p, none)
    else (.int (wrapInt (intBits tgt) v), some .Overflow)
  | .floating, .float q =>
    if q.fitsMantissa (mantBits tgt) then (p, none)
    else (.float (q.truncToMantissa (mantBits tgt)), some .PrecisionLoss)
  | _, _ => (p, none)

/-- Modelled from the spec (the conversion engine is in the missing C
sources): `convert(atom, target_dtype, mode)`. Identity conversions return
the atom unchanged; otherwise a direct `convert_from` hook is consulted;
otherwise same-category conversions use the promotion lattice (widening is
always defined and lossless, narrowing is explicit-only); cross-category
conversions without a hook fail with `NoConversionError`. -/
def convert (a : Atom) (tgt : Descriptor) (mode : Mode) :
    Except ConvFailure (Atom × Option Signal) :=
  if a.dtype = tgt then .ok (a, none)
  else
    match convertFromHook tgt a.dtype with
    | some h =>
      match h a.payload with
      | .error e => .error e
      | .ok (p, sig) => finishConv mode (lossyOnly tgt a.dtype) tgt p sig
    | none =>
      if a.dtype.category = tgt.category then
        if a.dtype.rank ≤ tgt.rank then .ok (⟨tgt, a.payload⟩, none)
        else
          let r := latticeNarrow tgt a.payload
          finishConv mode true tgt r.1 r.2
      else .error .NoConversionError

/-! ## Comparison -/

/-- Compare two payloads of the same dtype by value. -/
def nativeCompare (p q : Payload) : Except CmpError Ordering :=
  match p, q with
  | .bool a, .bool b =>
    .ok (if a = b then .eq else if a then .gt else .lt)
  | .int a, .int b =>
    .ok (if a < b then .lt else if a = b then .eq else .gt)
  | .float a, .float b => .ok (a.cmp b)
  | .buf a, .buf b =>
    .ok (if a = b then .eq else if a < b then .lt else .gt)
  | _, _ => .error .InvalidPayload

/-- Modelled from the spec (comparison is in the missing C sources):
`compare(a, b)` delegates to the native comparison when the dtypes agree,
implicitly widens the lower-rank operand within a category, and fails with
`IncomparableTypesError` across categories. -/
def Atom.compare (a b : Atom) : Except CmpError Ordering :=
  if a.dtype = b.dtype then nativeCompare a.payload b.payload
  else if a.dtype.category = b.dtype.category then
    if a.dtype.rank ≤ b.dtype.rank then
      match convert a b.dtype .implicit with
      | .ok (a2, _) => nativeCompare a2.payload b.payload
      | .error _ => .error .InvalidPayload
    else
      match convert b a.dtype .implicit with
      | .ok (b2, _) => nativeCompare a.payload b2.payload
      | .error _ => .error .InvalidPayload
  else .error .IncomparableTypesError

/-! ## Supporting lemmas -/

theorem promote_some (s : Signal) : promote (some s) = sigToFailure s := rfl

theorem hook_same_cat (t s : Descriptor) (c : Category)
    (ht : t.category = c) (hs : s.category = c) :
    convertFromHook t s = none := by
  unfold convertFromHook
  rw [ht, hs]
  cases c <;> rfl

theorem convert_lattice_widen (d1 d2 : Descriptor) (p : Payload) (mode : Mode)
    (hne : d1 ≠ d2) (hhook : convertFromHook d2 d1 = none)
    (hcat : d1.category = d2.category) (hr : d1.rank ≤ d2.rank) :
    convert ⟨d1, p⟩ d2 mode = .ok (⟨d2, p⟩, none) := by
  unfold convert
  dsimp only
  rw [if_neg hne, hhook]
  dsimp only
  rw [if_pos hcat, if_pos hr]

theorem convert_lattice_narrow_exp (d1 d2 : Descriptor) (p : Payload)
    (hne : d2 ≠ d1) (hhook : convertFromHook d1 d2 = none)
    (hcat : d2.category = d1.category) (hr2 : ¬ d2.rank ≤ d1.rank) :
    convert ⟨d2, p⟩ d1 .explicit
      = .ok (⟨d1, (latticeNarrow d1 p).1⟩, (latticeNarrow d1 p).2) := by
  unfold convert
  dsimp only
  rw [if_neg hne, hhook]
  dsimp only
  rw [if_pos hcat, if_neg hr2]
  rfl

theorem int_rt (d1 d2 : Descriptor) (v : Int)
    (hc1 : d1.category = .integer) (hc2 : d2.category = .integer)
    (hne : d1 ≠ d2) (hr : d1.rank ≤ d2.rank) (hr2 : ¬ d2.rank ≤ d1.rank)
    (hv : inIntRange (intBits d1) v = true) :
    convert ⟨d1, .int v⟩ d2 .implicit = .ok (⟨d2, .int v⟩, none) ∧
    convert ⟨d2, .int v⟩ d1 .explicit = .ok (⟨d1, .int v⟩, none) := by
  have hnarrow : latticeNarrow d1 (.int v) = (.int v, none) := by
    unfold latticeNarrow
    rw [hc1]
    dsimp only
    rw [if_pos hv]
  refine ⟨convert_lattice_widen d1 d2 (.int v) .implicit hne
      (hook_same_cat d2 d1 .integer hc2 hc1) (hc1.trans hc2.symm) hr, ?_⟩
  rw [convert_lattice_narrow_exp d1 d2 (.int v) (fun h => hne h.symm)
      (hook_same_cat d1 d2 .integer hc1 hc2) (hc2.trans hc1.symm) hr2, hnarrow]

theorem float_rt (d1 d2 : Descriptor) (q : Dyadic)
    (hc1 : d1.category = .floating) (hc2 : d2.category = .floating)
    (hne : d1 ≠ d2) (hr : d1.rank ≤ d2.rank) (hr2 : ¬ d2.rank ≤ d1.rank)
    (hfit : q.fitsMantissa (mantBits d1) = true) :
    convert ⟨d1, .float q⟩ d2 .implicit = .ok (⟨d2, .float q⟩, none) ∧
    convert ⟨d2, .float q⟩ d1 .explicit = .ok (⟨d1, .float q⟩, none) := by
  have hnarrow : latticeNarrow d1 (.float q) = (.float q, none) := by
    unfold latticeNarrow
    rw [hc1]
    dsimp only
    rw [if_pos hfit]
  refine ⟨convert_lattice_widen d1 d2 (.float q) .implicit hne
      (hook_same_cat d2 d1 .floating hc2 hc1) (hc1.trans hc2.symm) hr, ?_⟩
  rw [convert_lattice_narrow_exp d1 d2 (.float q) (fun h => hne h.symm)
      (hook_same_cat d1 d2 .floating hc1 hc2) (hc2.trans hc1.symm) hr2, hnarrow]

theorem bool_and_right {a b : Bool} (h : (a && b) = true) : b = true := by
  simp only [Bool.and_eq_true] at h
  exact h.2

theorem lossy_promoted (a : Atom) (tgt : Descriptor) (y : Atom) (s : Signal)
    (h : convert a tgt .explicit = .ok (y, some s)) :
    convert a tgt .implicit = .error (sigToFailure s) := by
  unfold convert at h ⊢
  by_cases he : a.dtype = tgt
  · rw [if_pos he] at h
    simp at h
  · rw [if_neg he] at h ⊢
    cases hk : convertFromHook tgt a.dtype with
    | some f =>
      rw [hk] at h
      dsimp only at h ⊢
      cases hf : f a.payload with
      | error e =>
        rw [hf] at h
        simp at h
      | ok pr =>
        obtain ⟨p, sig⟩ := pr
        rw [hf] at h
        dsimp only at h ⊢
        simp only [finishConv] at h
        obtain ⟨-, hs⟩ := (by simpa using h : (⟨tgt, p⟩ : Atom) = y ∧ sig = some s)
        subst hs
        cases hL : lossyOnly tgt a.dtype <;>
          simp [finishConv, promote, sigToFailure, hL]
    | none =>
      rw [hk] at h
      dsimp only at h ⊢
      by_cases hcat : a.dtype.category = tgt.category
      · rw [if_pos hcat] at h ⊢
        by_cases hrk : a.dtype.rank ≤ tgt.rank
        · rw [if_pos hrk] at h
          simp at h
        · rw [if_neg hrk] at h ⊢
          simp only [finishConv] at h
          obtain ⟨-, hs⟩ :=
            (by simpa using h :
              (⟨tgt, (latticeNarrow tgt a.payload).1⟩ : Atom) = y ∧
                (latticeNarrow tgt a.payload).2 = some s)
          simp [finishConv, hs, promote, sigToFailure]
      · rw [if_neg hcat] at h
        simp at h

/-! ## Claims -/

/-- Claim C1: the repository contains no implementation of any core
operation: its only source file is the build manifest setup.py, which
declares a C extension module named atom compiled from four C files, none
of which are present in the repository. -/
theorem build_manifest_without_sources :
    repositoryFiles = ["setup.py"] ∧
    atomModuleName = "atom" ∧
    atomModuleSources
      = ["atom_module.c", "atom_types.c", "atom_conversions.c", "dtype_object.c"] ∧
    ∀ f ∈ atomModuleSources, f ∉ repositoryFiles := by
  refine ⟨rfl, rfl, rfl, ?_⟩
  decide

/-- Claim C2: identity conversion — for every atom and every mode,
converting an atom to its own dtype returns the atom unchanged, with no
signal, and never fails. -/
theorem identity_conversion (a : Atom) (mode : Mode) :
    convert a a.dtype mode = .ok (a, none) := by
  unfold convert
  rw [if_pos rfl]

/-- Claim C3: registry uniqueness with atomicity on failure — when the
spec's name is already registered, register fails with
`DuplicateNameError` and returns the registry unchanged. -/
theorem register_duplicate_atomic (r : Registry) (s : DescriptorSpec)
    (h : ∃ d ∈ r.descs, d.name = s.name) :
    register s r = (.error .DuplicateNameError, r) := by
  have hc : r.descs.any (fun d => d.name == s.name) = true := by
    rcases h with ⟨d, hd, hn⟩
    rw [List.any_eq_true]
    exact ⟨d, hd, by simp [hn]⟩
  unfold register
  rw [if_pos hc]

theorem register_duplicate_atomic_witness :
    (∃ d ∈ builtinRegistry.descs, d.name = "int32") ∧
    register ⟨"int32", .custom, none, none⟩ builtinRegistry
      = (.error .DuplicateNameError, builtinRegistry) :=
  ⟨by decide,
   register_duplicate_atomic builtinRegistry ⟨"int32", .custom, none, none⟩ (by decide)⟩

/-- Claim C4: implicit mode forbids lossy narrowing — whenever an
explicit-mode conversion between built-in numeric dtypes is lossy (it
carries an `Overflow` or `PrecisionLoss` signal), the same conversion in
implicit mode fails, the soft signal promoted to a hard failure. -/
theorem implicit_promotes_lossy_to_failure (a : Atom) (tgt : Descriptor)
    (y : Atom) (s : Signal)
    (hsrc : a.dtype ∈ builtinDescs) (htgt : tgt ∈ builtinDescs)
    (hnum : (a.dtype.category = .integer ∨ a.dtype.category = .floating) ∧
      (tgt.category = .integer ∨ tgt.category = .floating))
    (hlossy : convert a tgt .explicit = .ok (y, some s)) :
    convert a tgt .implicit = .error (sigToFailure s) :=
  lossy_promoted a tgt y s hlossy

theorem implicit_promotes_lossy_to_failure_witness :
    (⟨float64_dtype, .float ⟨15, -2⟩⟩ : Atom).dtype ∈ builtinDescs ∧
    int32_dtype ∈ builtinDescs ∧
    convert ⟨float64_dtype, .float ⟨15, -2⟩⟩ int32_dtype .explicit
      = .ok (⟨int32_dtype, .int 3⟩, some .PrecisionLoss) ∧
    convert ⟨float64_dtype, .float ⟨15, -2⟩⟩ int32_dtype .implicit
      = .error (sigToFailure .PrecisionLoss) :=
  ⟨by decide, by decide, by decide,
   implicit_promotes_lossy_to_failure ⟨float64_dtype, .float ⟨15, -2⟩⟩ int32_dtype
     ⟨int32_dtype, .int 3⟩ .PrecisionLoss (by decide) (by decide)
     ⟨Or.inr (by decide), Or.inl (by decide)⟩ (by decide)⟩

/-- Claim C5: widening round-trip — for every pair of built-in dtypes in
the same category with ranks r1 < r2 and every payload valid for the r1
dtype, widening implicitly to the r2 dtype and converting back explicitly
either returns the original atom or carries a `PrecisionLoss` or
`Overflow` signal; it never silently differs. -/
theorem widening_roundtrip (d1 d2 : Descriptor) (p : Payload)
    (h1 : d1 ∈ builtinDescs) (h2 : d2 ∈ builtinDescs)
    (hc : d1.category = d2.category) (hr : d1.rank < d2.rank)
    (hv : validFor p d1 = true) :
    ∃ mid res sig,
      convert ⟨d1, p⟩ d2 .implicit = .ok (mid, none) ∧
      convert mid d1 .explicit = .ok (res, sig) ∧
      (res = ⟨d1, p⟩ ∨ sig = some .PrecisionLoss ∨ sig = some .Overflow) := by
  have h1' : d1 = bool_dtype ∨ d1 = int8_dtype ∨ d1 = int16_dtype ∨
      d1 = int32_dtype ∨ d1 = int64_dtype ∨ d1 = float32_dtype ∨
      d1 = float64_dtype ∨ d1 = text_dtype ∨ d1 = bytes_dtype := by
    simpa [builtinDescs] using h1
  have h2' : d2 = bool_dtype ∨ d2 = int8_dtype ∨ d2 = int16_dtype ∨
      d2 = int32_dtype ∨ d2 = int64_dtype ∨ d2 = float32_dtype ∨
      d2 = float64_dtype ∨ d2 = text_dtype ∨ d2 = bytes_dtype := by
    simpa [builtinDescs] using h2
  rcases h1' with rfl|rfl|rfl|rfl|rfl|rfl|rfl|rfl|rfl <;>
    rcases h2' with rfl|rfl|rfl|rfl|rfl|rfl|rfl|rfl|rfl <;>
    first
    | exact absurd hc (by decide)
    | exact absurd hr (by decide)
    | (cases p with
       | int v =>
         exact ⟨_, _, _,
           (int_rt _ _ v rfl rfl (by decide) (by decide) (by decide) hv).1,
           (int_rt _ _ v rfl rfl (by decide) (by decide) (by decide) hv).2,
           Or.inl rfl⟩
       | bool b => exact Bool.noConfusion hv
       | float q => exact Bool.noConfusion hv
       | buf l => exact Bool.noConfusion hv)
    | (cases p with
       | float q =>
         exact ⟨_, _, _,
           (float_rt _ _ q rfl rfl (by decide) (by decide) (by decide)
             (bool_and_right hv)).1,
           (float_rt _ _ q rfl rfl (by decide) (by decide) (by decide)
             (bool_and_right hv)).2,
           Or.inl rfl⟩
       | bool b => exact Bool.noConfusion hv
       | int v => exact Bool.noConfusion hv
       | buf l => exact Bool.noConfusion hv)

theorem widening_roundtrip_witness :
    (int8_dtype ∈ builtinDescs ∧ int32_dtype ∈ builtinDescs ∧
     int8_dtype.category = int32_dtype.category ∧
     int8_dtype.rank < int32_dtype.rank ∧ validFor (.int 7) int8_dtype = true) ∧
    (∃ mid res sig,
      convert ⟨int8_dtype, .int 7⟩ int32_dtype .implicit = .ok (mid, none) ∧
      convert mid int8_dtype .explicit = .ok (res, sig) ∧
      (res = ⟨int8_dtype, .int 7⟩ ∨ sig = some .PrecisionLoss ∨
        sig = some .Overflow)) :=
  ⟨by decide,
   widening_roundtrip int8_dtype int32_dtype (.int 7)
     (by decide) (by decide) (by decide) (by decide) (by decide)⟩

/-- Claim C6: boolean round-trip — for each boolean b, converting b to
int32 implicitly maps false to 0 and true to 1, and converting that
integer back to bool explicitly returns b, with no loss and no signal in
either direction. -/
theorem boolean_roundtrip (b : Bool) :
    convert ⟨bool_dtype, .bool b⟩ int32_dtype .implicit
      = .ok (⟨int32_dtype, .int (if b then 1 else 0)⟩, none) ∧
    convert ⟨int32_dtype, .int (if b then 1 else 0)⟩ bool_dtype .explicit
      = .ok (⟨bool_dtype, .bool b⟩, none) := by
  cases b <;> exact ⟨by decide, by decide⟩

/-- Claim C7: cross-category comparison always fails — comparing two
atoms whose dtypes lie in different categories fails with
`IncomparableTypesError`. -/
theorem cross_category_compare_fails (a b : Atom)
    (h : a.dtype.category ≠ b.dtype.category) :
    Atom.compare a b = .error .IncomparableTypesError := by
  have hne : a.dtype ≠ b.dtype := fun he => h (by rw [he])
  unfold Atom.compare
  rw [if_neg hne, if_neg h]

theorem cross_category_compare_fails_witness :
    (⟨text_dtype, .buf [104]⟩ : Atom).dtype.category
      ≠ (⟨int32_dtype, .int 5⟩ : Atom).dtype.category ∧
    Atom.compare ⟨text_dtype, .buf [104]⟩ ⟨int32_dtype, .int 5⟩
      = .error .IncomparableTypesError :=
  ⟨by decide,
   cross_category_compare_fails ⟨text_dtype, .buf [104]⟩ ⟨int32_dtype, .int 5⟩
     (by decide)⟩

/-- Claim C8: integer narrowing scenario — make(int32, 2147483647)
succeeds, and converting that atom to int8 in explicit mode returns the
two's-complement truncation -1 together with an `Overflow` signal. -/
theorem int32_narrow_int8_scenario :
    make int32_dtype (.int 2147483647) = .ok ⟨int32_dtype, .int 2147483647⟩ ∧
    convert ⟨int32_dtype, .int 2147483647⟩ int8_dtype .explicit
      = .ok (⟨int8_dtype, .int (-1)⟩, some .Overflow) := by
  exact ⟨by decide, by decide⟩

/-- Claim C9: float-to-integer scenario — make(float64, 3.75) succeeds
(3.75 is the dyadic 15·2⁻²), and converting that atom to int32 in
explicit mode rounds toward zero to the integer 3 with a `PrecisionLoss`
signal. -/
theorem float64_to_int32_scenario :
    make float64_dtype (.float ⟨15, -2⟩) = .ok ⟨float64_dtype, .float ⟨15, -2⟩⟩ ∧
    convert ⟨float64_dtype, .float ⟨15, -2⟩⟩ int32_dtype .explicit
      = .ok (⟨int32_dtype, .int 3⟩, some .PrecisionLoss) := by
  exact ⟨by decide, by decide⟩

/-- Claim C10: cross-category conversions are never guessed — for every
atom and target dtype in a different category, if the target's
convert_from table has no entry keyed by the atom's dtype, convert fails
with `NoConversionError` in both modes. -/
theorem cross_category_no_hook_fails (a : Atom) (tgt : Descriptor) (mode : Mode)
    (hcat : a.dtype.category ≠ tgt.category)
    (hhook : hasHook tgt a.dtype = false) :
    convert a tgt mode = .error .NoConversionError := by
  have hne : a.dtype ≠ tgt := fun he => hcat (by rw [he])
  have hnone : convertFromHook tgt a.dtype = none := by
    cases hk : convertFromHook tgt a.dtype with
    | some f => simp [hasHook, hk] at hhook
    | none => rfl
  unfold convert
  rw [if_neg hne, hnone]
  dsimp only
  rw [if_neg hcat]

theorem cross_category_no_hook_fails_witness :
    ((⟨text_dtype, .buf [104]⟩ : Atom).dtype.category ≠ int32_dtype.category ∧
     hasHook int32_dtype (⟨text_dtype, .buf [104]⟩ : Atom).dtype = false) ∧
    convert ⟨text_dtype, .buf [104]⟩ int32_dtype .implicit
      = .error .NoConversionError :=
  ⟨by decide,
   cross_category_no_hook_fails ⟨text_dtype, .buf [104]⟩ int32_dtype .implicit
     (by decide) (by decide)⟩
